import Mathlib

/-!
# User CRUD handlers over a document collection

A shallow embedding of `handlers/user_handlers.go`.  Every handler is a function from the
request and the current contents of the collection to an `Outcome`: the response written,
the contents of the collection afterwards, and the list of store calls that were issued.

The document store, the regular-expression engine behind its `$regex` operator, the
standard-library parsers (`strconv.Atoi`, `primitive.ObjectIDFromHex`) and the rendering of
templates are external to the repository.  They are modelled here by executable definitions;
whatever the model does not fix (faults of a store call, the identifier generated for an
inserted document, case folding, the behaviour of the engine on pattern syntax outside the
modelled fragment) is a field of `Env`, and every theorem quantifies over it.
-/

namespace CrudApp

/-! ## Identifiers: `primitive.ObjectID` and `primitive.ObjectIDFromHex` -/

/-- The twelve bytes of a `primitive.ObjectID`. -/
structure ObjectID where
  bytes : List Nat
  deriving DecidableEq, Repr

/-- The zero identifier, `primitive.NilObjectID`. -/
def NilObjectID : ObjectID := ⟨List.replicate 12 0⟩

/-- Value of one hexadecimal digit, as `encoding/hex` reads it (both letter cases). -/
def fromHexChar (c : Char) : Option Nat :=
  if 48 ≤ c.toNat ∧ c.toNat ≤ 57 then some (c.toNat - 48)
  else if 97 ≤ c.toNat ∧ c.toNat ≤ 102 then some (c.toNat - 97 + 10)
  else if 65 ≤ c.toNat ∧ c.toNat ≤ 70 then some (c.toNat - 65 + 10)
  else none

/-- Pairwise decoding of `hex.Decode`: fails on a digit that is not hexadecimal and on an odd
length.  A character outside ASCII is a run of bytes none of which is a hexadecimal digit, so
decoding characters fails exactly when decoding bytes does. -/
def hexDecode : List Char → Option (List Nat)
  | [] => some []
  | [_] => none
  | a :: b :: rest =>
    match fromHexChar a, fromHexChar b, hexDecode rest with
    | some x, some y, some bs => some ((x * 16 + y) :: bs)
    | _, _, _ => none

/-- Model of `primitive.ObjectIDFromHex`: the string must be 24 bytes long and decode as
hexadecimal. -/
def ObjectIDFromHex (s : String) : Option ObjectID :=
  if s.utf8ByteSize ≠ 24 then none
  else (hexDecode s.data).map ObjectID.mk

/-- A well-formed identifier in the words of the specification: 24 hexadecimal characters. -/
def IsObjectIDHex (s : String) : Prop :=
  s.data.length = 24 ∧ ∀ c ∈ s.data, (fromHexChar c).isSome = true

instance (s : String) : Decidable (IsObjectIDHex s) :=
  inferInstanceAs (Decidable (s.data.length = 24 ∧ ∀ c ∈ s.data, (fromHexChar c).isSome = true))

/-! ## Integers: `strconv.Atoi` -/

/-- Value of a decimal digit. -/
def digitVal (c : Char) : Option Nat :=
  if 48 ≤ c.toNat ∧ c.toNat ≤ 57 then some (c.toNat - 48) else none

/-- Left-to-right accumulation of decimal digits; fails on the first character that is not a
digit. -/
def parseDigits : List Char → Nat → Option Nat
  | [], n => some n
  | c :: cs, n =>
    match digitVal c with
    | some d => parseDigits cs (n * 10 + d)
    | none => none

/-- Model of `strconv.Atoi` for a 64-bit `int`: an optional sign, at least one decimal digit,
nothing else, and a value that fits in 64 bits. -/
def Atoi (s : String) : Option Int :=
  let signed : Bool × List Char :=
    match s.data with
    | c :: rest => if c = '-' then (true, rest) else if c = '+' then (false, rest) else (false, c :: rest)
    | [] => (false, [])
  if signed.2 = [] then none
  else
    match parseDigits signed.2 0 with
    | none => none
    | some n =>
      let v : Int := if signed.1 then -(n : Int) else (n : Int)
      if -(2 : Int) ^ 63 ≤ v ∧ v ≤ (2 : Int) ^ 63 - 1 then some v else none

/-! ## Data model -/

/-- Modelled from the spec: the `models` package that declares `User` is not among the
sources.  A user has an identifier assigned by the store, a name, an email and an integer
age; a value built without an identifier carries the zero identifier. -/
structure User where
  ID : ObjectID
  Name : String
  Email : String
  Age : Int
  deriving DecidableEq, Repr

/-- Modelled from the spec: the document field names of `User` (`name`, `email`), which the
search filter and the update document of the handlers refer to.  Only the two text fields
can be the subject of a pattern match. -/
def User.textField (u : User) (field : String) : Option String :=
  if field = "name" then some u.Name
  else if field = "email" then some u.Email
  else none

/-! ## The regular-expression engine behind `$regex` -/

/-- Abstract syntax of the modelled fragment of the pattern language. -/
inductive Regex where
  | fail
  | eps
  | lit (c : Char)
  | any
  | seq (a b : Regex)
  | alt (a b : Regex)
  | star (a : Regex)
  deriving DecidableEq, Repr

namespace Regex

/-- Does the expression match the empty string. -/
def nullable : Regex → Bool
  | fail => false
  | eps => true
  | lit _ => false
  | any => false
  | seq a b => nullable a && nullable b
  | alt a b => nullable a || nullable b
  | star _ => true

/-- Sequence that absorbs the trivial cases. -/
def mkSeq : Regex → Regex → Regex
  | fail, _ => fail
  | eps, b => b
  | a, b => seq a b

/-- Alternation that absorbs the empty language. -/
def mkAlt : Regex → Regex → Regex
  | fail, b => b
  | a, fail => a
  | a, b => alt a b

/-- Brzozowski derivative with respect to one subject character.  A literal is compared after
case folding with `fold`; the dot matches every character but the line feed. -/
def deriv (fold : Char → Char) : Regex → Char → Regex
  | fail, _ => fail
  | eps, _ => fail
  | lit c, d => if fold c = fold d then eps else fail
  | any, d => if d = '\n' then fail else eps
  | seq a b, d =>
    mkAlt (mkSeq (deriv fold a d) b) (if nullable a then deriv fold b d else fail)
  | alt a b, d => mkAlt (deriv fold a d) (deriv fold b d)
  | star a, d => mkSeq (deriv fold a d) (star a)

/-- Does the expression match some initial segment of the subject. -/
def matchesStart (fold : Char → Char) : Regex → List Char → Bool
  | r, [] => nullable r
  | r, d :: s => nullable r || matchesStart fold (deriv fold r d) s

/-- Unanchored search: does the expression match somewhere in the subject. -/
def search (fold : Char → Char) (r : Regex) : List Char → Bool
  | [] => nullable r
  | d :: s => matchesStart fold r (d :: s) || search fold r s

end Regex

/-- One open group during parsing: the alternatives already closed by a bar, the atoms of the
alternative being read (most recent first), and whether the most recent atom already carries
a quantifier. -/
structure Frame where
  alts : List Regex
  atoms : List Regex
  quantified : Bool
  deriving Repr

/-- Result of reading a pattern. -/
inductive Compiled where
  | ok (r : Regex)
  | invalid
  | unmodelled
  deriving Repr

/-- The empty frame, at the start of the pattern and after an opening parenthesis. -/
def Frame.start : Frame := ⟨[], [], false⟩

/-- Append an atom to the alternative being read. -/
def Frame.push (f : Frame) (r : Regex) : Frame := ⟨f.alts, r :: f.atoms, false⟩

/-- The sequence of the atoms read, in pattern order. -/
def seqOf (atoms : List Regex) : Regex :=
  atoms.foldl (fun acc a => Regex.seq a acc) Regex.eps

/-- The expression of a whole group: the alternation of its alternatives. -/
def Frame.close (f : Frame) : Regex :=
  f.alts.foldl (fun acc r => Regex.alt r acc) (seqOf f.atoms)

/-- Apply a quantifier to the most recent atom.  A quantifier with nothing before it is
rejected by the engine; a quantifier directly after a quantifier (lazy and possessive forms)
is outside the fragment. -/
def Frame.quantify (f : Frame) (q : Regex → Regex) : Option (Option Frame) :=
  match f.atoms with
  | [] => some Option.none
  | a :: rest => if f.quantified then Option.none else some (some ⟨f.alts, q a :: rest, true⟩)

/-- ASCII letters and digits: after a backslash they start an escape sequence with a meaning
of its own. -/
def isAlnum (c : Char) : Bool :=
  (48 ≤ c.toNat && c.toNat ≤ 57) || (65 ≤ c.toNat && c.toNat ≤ 90) || (97 ≤ c.toNat && c.toNat ≤ 122)

/-- The characters with a special meaning in a pattern, the ones `regexp.QuoteMeta` escapes. -/
def isMeta (c : Char) : Bool :=
  c ∈ ['\\', '.', '+', '*', '?', '(', ')', '|', '[', ']', '{', '}', '^', '$']

/-- State of the reader: the group being read, the groups around it, whether the previous
character was an unescaped backslash, and whether it was an opening parenthesis. -/
structure PState where
  cur : Frame
  stack : List Frame
  escaped : Bool
  opened : Bool
  deriving Repr

/-- Result of reading one character: a new state, or the verdict on the whole pattern. -/
inductive Step where
  | next (st : PState)
  | stop (r : Compiled)

/-- The state after an atom has been read. -/
def PState.push (st : PState) (r : Regex) : PState := ⟨st.cur.push r, st.stack, false, false⟩

/-- The state after a quantifier has been read. -/
def PState.quantify (st : PState) (q : Regex → Regex) : Step :=
  match st.cur.quantify q with
  | Option.none => Step.stop Compiled.unmodelled
  | some Option.none => Step.stop Compiled.invalid
  | some (some f) => Step.next ⟨f, st.stack, false, false⟩

/-- Reader of the modelled fragment, one character at a time: literals, the dot, groups,
alternation, the quantifiers star, plus and question mark, and a backslash before a character
that is not a letter or digit.  Anchors, classes, counted repetition, special groups (an
opening parenthesis followed by a question mark or a star) and letter escapes are reported as
`unmodelled`. -/
def step (st : PState) (c : Char) : Step :=
  if st.escaped then
    if isAlnum c then Step.stop Compiled.unmodelled else Step.next (st.push (Regex.lit c))
  else if c = '\\' then Step.next ⟨st.cur, st.stack, true, false⟩
  else if c = '(' then Step.next ⟨Frame.start, st.cur :: st.stack, false, true⟩
  else if c = ')' then
    match st.stack with
    | [] => Step.stop Compiled.invalid
    | parent :: rest => Step.next ⟨parent.push st.cur.close, rest, false, false⟩
  else if c = '|' then
    Step.next ⟨⟨seqOf st.cur.atoms :: st.cur.alts, [], false⟩, st.stack, false, false⟩
  else if c = '.' then Step.next (st.push Regex.any)
  else if c = '*' then
    if st.opened then Step.stop Compiled.unmodelled else st.quantify Regex.star
  else if c = '+' then st.quantify (fun a => Regex.seq a (Regex.star a))
  else if c = '?' then
    if st.opened then Step.stop Compiled.unmodelled
    else st.quantify (fun a => Regex.alt a Regex.eps)
  else if isMeta c then Step.stop Compiled.unmodelled
  else Step.next (st.push (Regex.lit c))

/-- The verdict at the end of the pattern: a pending backslash and an open group are
rejected. -/
def finish (st : PState) : Compiled :=
  if st.escaped then Compiled.invalid
  else
    match st.stack with
    | [] => Compiled.ok st.cur.close
    | _ :: _ => Compiled.invalid

/-- Read the characters of a pattern from a state. -/
def parseFrom : List Char → PState → Compiled
  | [], st => finish st
  | c :: rest, st =>
    match step st c with
    | Step.next st2 => parseFrom rest st2
    | Step.stop r => r

/-- Read a whole pattern. -/
def parsePattern (p : String) : Compiled := parseFrom p.data ⟨Frame.start, [], false, false⟩

/-! ## The document store -/

/-- A pattern value as the handlers build it, `primitive.Regex`. -/
structure PrimRegex where
  Pattern : String
  Options : String
  deriving DecidableEq, Repr

/-- Everything about one store call that the model leaves open: the error the call (or the
draining of its cursor) fails with, if any; the identifier generated for a document inserted
without one; the case folding of the pattern engine; and what the engine does with a pattern
outside the modelled fragment (`none`: the pattern is rejected). -/
structure Env where
  fault : Option String
  cursorFault : Option String
  newID : ObjectID
  fold : Char → Char
  extEngine : String → String → Option (List Char → Bool)

/-- Compile a pattern value to a test on subject strings; `none` when the engine rejects the
pattern.  With option `i` a pattern of the modelled fragment is searched for case-
insensitively anywhere in the subject. -/
def compileRegex (env : Env) (re : PrimRegex) : Option (List Char → Bool) :=
  if re.Options = "i" then
    match parsePattern re.Pattern with
    | Compiled.ok r => some (Regex.search env.fold r)
    | Compiled.invalid => none
    | Compiled.unmodelled => env.extEngine re.Pattern re.Options
  else env.extEngine re.Pattern re.Options

/-- The query documents the handlers pass to the store. -/
inductive Filter where
  | all
  | idEq (oid : ObjectID)
  | regex (field : String) (re : PrimRegex)
  | or (a b : Filter)
  deriving DecidableEq, Repr

/-- The test a query document denotes; `none` when the store rejects the query. -/
def Filter.compile (env : Env) : Filter → Option (User → Bool)
  | Filter.all => some (fun _ => true)
  | Filter.idEq oid => some (fun u => decide (u.ID = oid))
  | Filter.regex field re =>
    (compileRegex env re).map (fun m u =>
      match u.textField field with
      | some s => m s.data
      | none => false)
  | Filter.or a b =>
    match Filter.compile env a, Filter.compile env b with
    | some p, some q => some (fun u => p u || q u)
    | _, _ => none

/-- The update document of `UpdateHandler`: a `$set` of the three fields. -/
structure SetFields where
  name : String
  email : String
  age : Int
  deriving DecidableEq, Repr

/-- Contents of the `users` collection, in the store's natural order. -/
structure Collection where
  docs : List User
  deriving DecidableEq, Repr

/-- The identifiers present in the collection. -/
def Collection.ids (c : Collection) : List ObjectID := c.docs.map User.ID

/-- The store keeps identifiers unique. -/
def Collection.Valid (c : Collection) : Prop := c.ids.Nodup

/-- Apply `f` to the first element that satisfies `p`. -/
def applyFirst (p : User → Bool) (f : User → User) : List User → List User
  | [] => []
  | u :: us => if p u then f u :: us else u :: applyFirst p f us

/-- Remove the first element that satisfies `p`. -/
def removeFirst (p : User → Bool) : List User → List User
  | [] => []
  | u :: us => if p u then us else u :: removeFirst p us

/-- Model of `Collection.Find`: the documents that satisfy the query, unless the call fails
or the query is rejected. -/
def Collection.Find (env : Env) (c : Collection) (f : Filter) : Except String (List User) :=
  match env.fault with
  | some e => Except.error e
  | none =>
    match f.compile env with
    | none => Except.error "Regular expression is invalid"
    | some p => Except.ok (c.docs.filter p)

/-- Model of `Cursor.All`: all documents of the cursor, unless draining fails. -/
def CursorAll (env : Env) (cursor : List User) : Except String (List User) :=
  match env.cursorFault with
  | some e => Except.error e
  | none => Except.ok cursor

/-- Model of `Collection.FindOne(...).Decode`: the first document that satisfies the query;
an error when the call fails and when there is no such document. -/
def Collection.FindOne (env : Env) (c : Collection) (f : Filter) : Except String User :=
  match env.fault with
  | some e => Except.error e
  | none =>
    match f.compile env with
    | none => Except.error "Regular expression is invalid"
    | some p =>
      match c.docs.find? p with
      | some u => Except.ok u
      | none => Except.error "mongo: no documents in result"

/-- Modelled from the spec: a document that is inserted without an identifier (the field holds
the zero identifier and is left out of the document) is given a generated one. -/
def assignID (newID : ObjectID) (u : User) : User :=
  if u.ID = NilObjectID then { u with ID := newID } else u

/-- Model of `Collection.InsertOne`: the document, with its identifier assigned, is added at
the end; an identifier already present is a duplicate-key error.  A failed call leaves the
collection as it was. -/
def Collection.InsertOne (env : Env) (c : Collection) (u : User) :
    Except String (ObjectID × Collection) :=
  match env.fault with
  | some e => Except.error e
  | none =>
    let doc : User := assignID env.newID u
    if doc.ID ∈ c.ids then Except.error "E11000 duplicate key error"
    else Except.ok (doc.ID, ⟨c.docs ++ [doc]⟩)

/-- Model of `Collection.UpdateOne` with a `$set` document: the first document that satisfies
the query gets the three fields; no such document is not an error. -/
def Collection.UpdateOne (env : Env) (c : Collection) (f : Filter) (upd : SetFields) :
    Except String Collection :=
  match env.fault with
  | some e => Except.error e
  | none =>
    match f.compile env with
    | none => Except.error "Regular expression is invalid"
    | some p =>
      Except.ok ⟨applyFirst p (fun u => { u with Name := upd.name, Email := upd.email, Age := upd.age }) c.docs⟩

/-- Model of `Collection.DeleteOne`: the first document that satisfies the query is removed;
no such document is not an error. -/
def Collection.DeleteOne (env : Env) (c : Collection) (f : Filter) : Except String Collection :=
  match env.fault with
  | some e => Except.error e
  | none =>
    match f.compile env with
    | none => Except.error "Regular expression is invalid"
    | some p => Except.ok ⟨removeFirst p c.docs⟩

/-! ## Requests and responses -/

/-- The parts of an `http.Request` the handlers read: the method, the path variables of the
router, the parsed form values and the query parameters. -/
structure Request where
  Method : String
  Vars : List (String × String)
  Form : List (String × String)
  Query : List (String × String)
  deriving DecidableEq, Repr

/-- Lookup `mux.Vars(r)[key]`: the empty string when the variable is absent. -/
def Request.Var (r : Request) (key : String) : String := (r.Vars.lookup key).getD ""

/-- Lookup `r.FormValue(key)`: the first value, the empty string when absent. -/
def Request.FormValue (r : Request) (key : String) : String := (r.Form.lookup key).getD ""

/-- Lookup `r.URL.Query().Get(key)`: the first value, the empty string when absent. -/
def Request.QueryGet (r : Request) (key : String) : String := (r.Query.lookup key).getD ""

/-- The value handed to a template. -/
inductive TemplateData where
  | null
  | users (us : List User)
  | user (u : User)
  | search (Users : List User) (Query : String) (Count : Nat)
  deriving DecidableEq, Repr

/-- What a handler writes: `http.Error`, `http.Redirect`, the execution of a parsed template,
or the JSON encoding of a slice of users with the JSON content type. -/
inductive Response where
  | error (msg : String) (code : Nat)
  | redirect (url : String) (code : Nat)
  | page (files : List String) (data : TemplateData)
  | json (users : List User)
  deriving DecidableEq, Repr

def StatusOK : Nat := 200
def StatusSeeOther : Nat := 303
def StatusBadRequest : Nat := 400
def StatusNotFound : Nat := 404
def StatusMethodNotAllowed : Nat := 405
def StatusInternalServerError : Nat := 500

/-- The status code of a response; a body written without an explicit code is a 200. -/
def Response.status : Response → Nat
  | Response.error _ code => code
  | Response.redirect _ code => code
  | Response.page _ _ => StatusOK
  | Response.json _ => StatusOK

/-- The headers the handlers set: the target of a redirect, and the content type of an error
text and of a JSON body. -/
def Response.header : Response → String → Option String
  | Response.error _ _, k => if k = "Content-Type" then some "text/plain; charset=utf-8" else none
  | Response.redirect url _, k => if k = "Location" then some url else none
  | Response.page _ _, _ => none
  | Response.json _, k => if k = "Content-Type" then some "application/json" else none

/-- A store call as a handler issues it. -/
inductive StoreCall where
  | Find (f : Filter)
  | All
  | FindOne (f : Filter)
  | InsertOne (u : User)
  | UpdateOne (f : Filter) (upd : SetFields)
  | DeleteOne (f : Filter)
  deriving DecidableEq, Repr

/-- Result of running a handler: the response, the collection afterwards, the store calls
issued in order. -/
structure Outcome where
  resp : Response
  store : Collection
  calls : List StoreCall
  deriving DecidableEq, Repr

/-! ## The handlers -/

/-- Home page: all users.  `IndexHandler` of the source. -/
def IndexHandler (env : Env) (c : Collection) (_r : Request) : Outcome :=
  match c.Find env Filter.all with
  | Except.error e => ⟨Response.error e StatusInternalServerError, c, [StoreCall.Find Filter.all]⟩
  | Except.ok cursor =>
    match CursorAll env cursor with
    | Except.error e =>
      ⟨Response.error e StatusInternalServerError, c, [StoreCall.Find Filter.all, StoreCall.All]⟩
    | Except.ok users =>
      ⟨Response.page ["templates/layout.html", "templates/index.html"] (TemplateData.users users),
        c, [StoreCall.Find Filter.all, StoreCall.All]⟩

/-- The creation form.  `CreateFormHandler` of the source. -/
def CreateFormHandler (_env : Env) (c : Collection) (_r : Request) : Outcome :=
  ⟨Response.page ["templates/layout.html", "templates/create.html"] TemplateData.null, c, []⟩

/-- Create a user.  `CreateHandler` of the source. -/
def CreateHandler (env : Env) (c : Collection) (r : Request) : Outcome :=
  if r.Method ≠ "POST" then ⟨Response.error "Method not allowed" StatusMethodNotAllowed, c, []⟩
  else
    let name := r.FormValue "name"
    let email := r.FormValue "email"
    let ageStr := r.FormValue "age"
    match Atoi ageStr with
    | none => ⟨Response.error "Invalid age" StatusBadRequest, c, []⟩
    | some age =>
      let user : User := { ID := NilObjectID, Name := name, Email := email, Age := age }
      match c.InsertOne env user with
      | Except.error e =>
        ⟨Response.error e StatusInternalServerError, c, [StoreCall.InsertOne user]⟩
      | Except.ok (_, c2) => ⟨Response.redirect "/" StatusSeeOther, c2, [StoreCall.InsertOne user]⟩

/-- The edit form of one user.  `EditFormHandler` of the source. -/
def EditFormHandler (env : Env) (c : Collection) (r : Request) : Outcome :=
  let id := r.Var "id"
  match ObjectIDFromHex id with
  | none => ⟨Response.error "Invalid ID" StatusBadRequest, c, []⟩
  | some objectID =>
    match c.FindOne env (Filter.idEq objectID) with
    | Except.error _ =>
      ⟨Response.error "User not found" StatusNotFound, c, [StoreCall.FindOne (Filter.idEq objectID)]⟩
    | Except.ok user =>
      ⟨Response.page ["templates/layout.html", "templates/edit.html"] (TemplateData.user user),
        c, [StoreCall.FindOne (Filter.idEq objectID)]⟩

/-- Update a user.  `UpdateHandler` of the source. -/
def UpdateHandler (env : Env) (c : Collection) (r : Request) : Outcome :=
  if r.Method ≠ "POST" then ⟨Response.error "Method not allowed" StatusMethodNotAllowed, c, []⟩
  else
    let id := r.Var "id"
    match ObjectIDFromHex id with
    | none => ⟨Response.error "Invalid ID" StatusBadRequest, c, []⟩
    | some objectID =>
      let name := r.FormValue "name"
      let email := r.FormValue "email"
      let ageStr := r.FormValue "age"
      match Atoi ageStr with
      | none => ⟨Response.error "Invalid age" StatusBadRequest, c, []⟩
      | some age =>
        let update : SetFields := { name := name, email := email, age := age }
        match c.UpdateOne env (Filter.idEq objectID) update with
        | Except.error e =>
          ⟨Response.error e StatusInternalServerError, c,
            [StoreCall.UpdateOne (Filter.idEq objectID) update]⟩
        | Except.ok c2 =>
          ⟨Response.redirect "/" StatusSeeOther, c2,
            [StoreCall.UpdateOne (Filter.idEq objectID) update]⟩

/-- Delete a user.  `DeleteHandler` of the source. -/
def DeleteHandler (env : Env) (c : Collection) (r : Request) : Outcome :=
  let id := r.Var "id"
  match ObjectIDFromHex id with
  | none => ⟨Response.error "Invalid ID" StatusBadRequest, c, []⟩
  | some objectID =>
    match c.DeleteOne env (Filter.idEq objectID) with
    | Except.error e =>
      ⟨Response.error e StatusInternalServerError, c, [StoreCall.DeleteOne (Filter.idEq objectID)]⟩
    | Except.ok c2 =>
      ⟨Response.redirect "/" StatusSeeOther, c2, [StoreCall.DeleteOne (Filter.idEq objectID)]⟩

/-- All users as JSON.  `GetUsersAPI` of the source. -/
def GetUsersAPI (env : Env) (c : Collection) (_r : Request) : Outcome :=
  match c.Find env Filter.all with
  | Except.error e => ⟨Response.error e StatusInternalServerError, c, [StoreCall.Find Filter.all]⟩
  | Except.ok cursor =>
    match CursorAll env cursor with
    | Except.error e =>
      ⟨Response.error e StatusInternalServerError, c, [StoreCall.Find Filter.all, StoreCall.All]⟩
    | Except.ok users => ⟨Response.json users, c, [StoreCall.Find Filter.all, StoreCall.All]⟩

/-- The query document of both search handlers: the pattern, case-insensitive, on the name
or on the email. -/
def searchFilter (query : String) : Filter :=
  let searchRegex : PrimRegex := { Pattern := query, Options := "i" }
  Filter.or (Filter.regex "name" searchRegex) (Filter.regex "email" searchRegex)

/-- The search page.  `SearchHandler` of the source. -/
def SearchHandler (env : Env) (c : Collection) (r : Request) : Outcome :=
  let query := r.QueryGet "q"
  if query = "" then ⟨Response.redirect "/" StatusSeeOther, c, []⟩
  else
    let filter := searchFilter query
    match c.Find env filter with
    | Except.error e => ⟨Response.error e StatusInternalServerError, c, [StoreCall.Find filter]⟩
    | Except.ok cursor =>
      match CursorAll env cursor with
      | Except.error e =>
        ⟨Response.error e StatusInternalServerError, c, [StoreCall.Find filter, StoreCall.All]⟩
      | Except.ok users =>
        ⟨Response.page ["templates/layout.html", "templates/search.html"]
            (TemplateData.search users query users.length),
          c, [StoreCall.Find filter, StoreCall.All]⟩

/-- The search as JSON.  `SearchUsersAPI` of the source. -/
def SearchUsersAPI (env : Env) (c : Collection) (r : Request) : Outcome :=
  let query := r.QueryGet "q"
  if query = "" then ⟨Response.json [], c, []⟩
  else
    let filter := searchFilter query
    match c.Find env filter with
    | Except.error e => ⟨Response.error e StatusInternalServerError, c, [StoreCall.Find filter]⟩
    | Except.ok cursor =>
      match CursorAll env cursor with
      | Except.error e =>
        ⟨Response.error e StatusInternalServerError, c, [StoreCall.Find filter, StoreCall.All]⟩
      | Except.ok users => ⟨Response.json users, c, [StoreCall.Find filter, StoreCall.All]⟩

/-! ## The search of the specification -/

/-- Containment in the words of the specification: the characters of `q` occur in `s` as a
contiguous run, both compared after case folding. -/
def containsFold (fold : Char → Char) (q s : String) : Prop :=
  (q.data.map fold) <:+: (s.data.map fold)

instance (fold : Char → Char) (q s : String) : Decidable (containsFold fold q s) :=
  inferInstanceAs (Decidable ((q.data.map fold) <:+: (s.data.map fold)))

/-- The result of a search in the words of the specification: the stored users whose name or
whose email contains the query. -/
def literalMatches (fold : Char → Char) (q : String) (docs : List User) : List User :=
  docs.filter (fun u => decide (containsFold fold q u.Name ∨ containsFold fold q u.Email))

/-- A query without any character that has a special meaning in a pattern. -/
def IsPlain (q : String) : Prop := ∀ c ∈ q.data, isMeta c = false

/-- The expression of a run of literal characters. -/
def lits (q : List Char) : Regex :=
  q.foldr (fun c acc => Regex.seq (Regex.lit c) acc) Regex.eps

/-! ## Sample data -/

/-- A store call that succeeds; ASCII case folding; nothing outside the modelled fragment. -/
def sampleEnv : Env :=
  { fault := none, cursorFault := none, newID := ⟨[101, 102, 103, 104, 105, 106, 107, 108, 109, 110, 111, 112]⟩,
    fold := Char.toLower, extEngine := fun _ _ => none }

/-- A store call that runs into the deadline of its context. -/
def timeoutEnv : Env := { sampleEnv with fault := some "context deadline exceeded" }

/-- The identifier written `507f1f77bcf86cd799439011`. -/
def bobID : ObjectID := ⟨[80, 127, 31, 119, 188, 248, 108, 215, 153, 67, 144, 17]⟩

/-- The identifier written `507f1f77bcf86cd799439012`. -/
def annID : ObjectID := ⟨[80, 127, 31, 119, 188, 248, 108, 215, 153, 67, 144, 18]⟩

def bob : User := { ID := bobID, Name := "Bob", Email := "bob@x.com", Age := 30 }

def ann : User := { ID := annID, Name := "Ann Lee", Email := "Anna@example.com", Age := 41 }

/-- A collection of two users. -/
def sampleStore : Collection := ⟨[bob, ann]⟩

/-- A form post for the path identifier `id`. -/
def postReq (id name email age : String) : Request :=
  { Method := "POST", Vars := [("id", id)], Form := [("name", name), ("email", email), ("age", age)],
    Query := [] }

/-- A request for the path identifier `id` without a form. -/
def getReq (id : String) : Request :=
  { Method := "GET", Vars := [("id", id)], Form := [], Query := [] }

/-- A search request for the query `q`. -/
def searchReq (q : String) : Request :=
  { Method := "GET", Vars := [], Form := [], Query := [("q", q)] }

/-! ## Identifier parsing -/

theorem hexDecode_all_hex : ∀ (l : List Char) (bs : List Nat),
    hexDecode l = some bs → ∀ c ∈ l, (fromHexChar c).isSome = true
  | [], _, _ => by simp
  | [_], _, h => by simp [hexDecode] at h
  | a :: b :: rest, bs, h => by
    unfold hexDecode at h
    cases ha : fromHexChar a with
    | none => simp [ha] at h
    | some x =>
      cases hb : fromHexChar b with
      | none => simp [ha, hb] at h
      | some y =>
        cases hr : hexDecode rest with
        | none => simp [ha, hb, hr] at h
        | some bs2 =>
          have ih := hexDecode_all_hex rest bs2 hr
          intro c hc
          simp only [List.mem_cons] at hc
          rcases hc with rfl | rfl | hc
          · simp [ha]
          · simp [hb]
          · exact ih c hc

theorem hexDecode_isSome : ∀ (n : Nat) (l : List Char), l.length = 2 * n →
    (∀ c ∈ l, (fromHexChar c).isSome = true) → (hexDecode l).isSome = true
  | 0, l, hl, _ => by
    have : l = [] := List.length_eq_zero.mp (by omega)
    subst this; rfl
  | n + 1, l, hl, h => by
    match l, hl, h with
    | [], hl, _ => simp at hl
    | [_], hl, _ => simp at hl; omega
    | a :: b :: rest, hl, h =>
      have hrest : rest.length = 2 * n := by simp at hl; omega
      have ih := hexDecode_isSome n rest hrest (fun c hc => h c (by simp [hc]))
      have ha := h a (by simp)
      have hb := h b (by simp)
      obtain ⟨x, hx⟩ := Option.isSome_iff_exists.mp ha
      obtain ⟨y, hy⟩ := Option.isSome_iff_exists.mp hb
      obtain ⟨bs, hbs⟩ := Option.isSome_iff_exists.mp ih
      simp [hexDecode, hx, hy, hbs]

theorem hex_utf8Size (c : Char) (h : (fromHexChar c).isSome = true) : c.utf8Size = 1 := by
  have hc : c.toNat ≤ 102 := by
    unfold fromHexChar at h
    split at h
    · omega
    · split at h
      · omega
      · split at h
        · omega
        · simp at h
  have hv : c.val.toNat ≤ 127 := by
    have : c.val.toNat = c.toNat := rfl
    omega
  have hle : c.val ≤ UInt32.ofNatCore 127 (by decide) := hv
  unfold Char.utf8Size
  exact if_pos hle

theorem utf8ByteSize_go_hex : ∀ l : List Char, (∀ c ∈ l, (fromHexChar c).isSome = true) →
    String.utf8ByteSize.go l = l.length
  | [], _ => rfl
  | c :: cs, h => by
    have ih := utf8ByteSize_go_hex cs (fun d hd => h d (by simp [hd]))
    have hc := hex_utf8Size c (h c (by simp))
    show String.utf8ByteSize.go cs + c.utf8Size = cs.length + 1
    rw [ih, hc]

theorem ObjectIDFromHex_eq_none_iff (s : String) :
    ObjectIDFromHex s = none ↔ ¬ IsObjectIDHex s := by
  constructor
  · intro h hs
    obtain ⟨hlen, hall⟩ := hs
    have hsz : s.utf8ByteSize = 24 := by
      show String.utf8ByteSize.go s.data = 24
      rw [utf8ByteSize_go_hex s.data hall, hlen]
    have hd := hexDecode_isSome 12 s.data (by omega) hall
    obtain ⟨bs, hbs⟩ := Option.isSome_iff_exists.mp hd
    simp [ObjectIDFromHex, hsz, hbs] at h
  · intro h
    by_contra hne
    obtain ⟨oid, hoid⟩ := Option.ne_none_iff_exists'.mp hne
    unfold ObjectIDFromHex at hoid
    split at hoid
    · simp at hoid
    · rename_i hsz
      have hsz2 : s.utf8ByteSize = 24 := by simpa using hsz
      cases hd : hexDecode s.data with
      | none => simp [hd] at hoid
      | some bs =>
        have hall := hexDecode_all_hex s.data bs hd
        apply h
        refine ⟨?_, hall⟩
        rw [← utf8ByteSize_go_hex s.data hall]
        exact hsz2

/-! ## Validation of the request -/

/-- C4: a path identifier that is not 24 hexadecimal characters is answered with a 400
"Invalid ID" by `EditFormHandler`, by `UpdateHandler` on a POST and by `DeleteHandler`,
whatever the form values are; no store call is issued and the collection is as before. -/
theorem malformed_id_rejected (env : Env) (c : Collection) (r : Request)
    (h : ¬ IsObjectIDHex (r.Var "id")) :
    EditFormHandler env c r = ⟨Response.error "Invalid ID" StatusBadRequest, c, []⟩ ∧
    (r.Method = "POST" →
      UpdateHandler env c r = ⟨Response.error "Invalid ID" StatusBadRequest, c, []⟩) ∧
    DeleteHandler env c r = ⟨Response.error "Invalid ID" StatusBadRequest, c, []⟩ ∧
    StatusBadRequest = 400 := by
  have hid : ObjectIDFromHex (r.Var "id") = none := (ObjectIDFromHex_eq_none_iff _).mpr h
  refine ⟨?_, ?_, ?_, rfl⟩
  · simp [EditFormHandler, hid]
  · intro hm
    simp [UpdateHandler, hm, hid]
  · simp [DeleteHandler, hid]

theorem malformed_id_rejected_witness :
    ¬ IsObjectIDHex ((postReq "xyz" "Bob" "bob@x.com" "abc").Var "id") ∧
    (UpdateHandler sampleEnv sampleStore (postReq "xyz" "Bob" "bob@x.com" "abc")).resp.status = 400 ∧
    (UpdateHandler sampleEnv sampleStore (postReq "xyz" "Bob" "bob@x.com" "abc")).calls = [] := by
  have hbad : ¬ IsObjectIDHex ((postReq "xyz" "Bob" "bob@x.com" "abc").Var "id") := by
    intro h
    exact absurd h.1 (by decide)
  have h := (malformed_id_rejected sampleEnv sampleStore (postReq "xyz" "Bob" "bob@x.com" "abc") hbad).2.1 rfl
  exact ⟨hbad, by rw [h]; rfl, by rw [h]⟩

/-- C3 (as stated, refuted): a POST to `UpdateHandler` with the age `abc` and the path
identifier `xyz` is not answered with "Invalid age": the identifier is checked first and the
answer is "Invalid ID". -/
theorem invalid_age_message_counterexample :
    (postReq "xyz" "Bob" "bob@x.com" "abc").Method = "POST" ∧
    Atoi ((postReq "xyz" "Bob" "bob@x.com" "abc").FormValue "age") = none ∧
    (UpdateHandler sampleEnv sampleStore (postReq "xyz" "Bob" "bob@x.com" "abc")).resp
      ≠ Response.error "Invalid age" StatusBadRequest ∧
    (UpdateHandler sampleEnv sampleStore (postReq "xyz" "Bob" "bob@x.com" "abc")).resp
      = Response.error "Invalid ID" StatusBadRequest := by
  decide

/-- C3 (amended): a POST whose age does not parse as an integer is answered with status 400,
no store call is issued and the collection is as before, by `CreateHandler` and by
`UpdateHandler`.  The message is "Invalid age" from `CreateHandler`, and from `UpdateHandler`
when the path identifier is well formed; `UpdateHandler` answers "Invalid ID" otherwise. -/
theorem invalid_age_rejected (env : Env) (c : Collection) (r : Request)
    (hm : r.Method = "POST") (hage : Atoi (r.FormValue "age") = none) :
    CreateHandler env c r = ⟨Response.error "Invalid age" StatusBadRequest, c, []⟩ ∧
    (UpdateHandler env c r).resp.status = 400 ∧
    (UpdateHandler env c r).calls = [] ∧
    (UpdateHandler env c r).store = c ∧
    (UpdateHandler env c r).resp =
      (if IsObjectIDHex (r.Var "id") then Response.error "Invalid age" StatusBadRequest
       else Response.error "Invalid ID" StatusBadRequest) := by
  refine ⟨by simp [CreateHandler, hm, hage], ?_⟩
  by_cases hid : IsObjectIDHex (r.Var "id")
  · have hsome : ObjectIDFromHex (r.Var "id") ≠ none := fun hn =>
      (ObjectIDFromHex_eq_none_iff _).mp hn hid
    obtain ⟨oid, hoid⟩ := Option.ne_none_iff_exists'.mp hsome
    simp [UpdateHandler, hm, hoid, hage, hid, Response.status, StatusBadRequest]
  · have hnone := (ObjectIDFromHex_eq_none_iff _).mpr hid
    simp [UpdateHandler, hm, hnone, hid, Response.status, StatusBadRequest]

theorem invalid_age_rejected_witness :
    Atoi ((postReq "507f1f77bcf86cd799439011" "Bob" "bob@x.com" "3.5").FormValue "age") = none ∧
    CreateHandler sampleEnv sampleStore (postReq "507f1f77bcf86cd799439011" "Bob" "bob@x.com" "3.5")
      = ⟨Response.error "Invalid age" StatusBadRequest, sampleStore, []⟩ :=
  ⟨by decide,
    (invalid_age_rejected sampleEnv sampleStore
      (postReq "507f1f77bcf86cd799439011" "Bob" "bob@x.com" "3.5") rfl (by decide)).1⟩

/-- C5: when the query parameter `q` is absent or empty, `SearchHandler` redirects to `/` and
`SearchUsersAPI` answers with the JSON encoding of the empty slice under the JSON content
type; neither issues a store call, and the collection is as before. -/
theorem empty_query_short_circuits (env : Env) (c : Collection) (r : Request)
    (h : r.Query.lookup "q" = none ∨ r.Query.lookup "q" = some "") :
    SearchHandler env c r = ⟨Response.redirect "/" StatusSeeOther, c, []⟩ ∧
    (SearchHandler env c r).resp.header "Location" = some "/" ∧
    SearchUsersAPI env c r = ⟨Response.json [], c, []⟩ ∧
    (SearchUsersAPI env c r).resp.header "Content-Type" = some "application/json" := by
  have hq : r.QueryGet "q" = "" := by
    rcases h with h | h <;> simp [Request.QueryGet, h]
  simp [SearchHandler, SearchUsersAPI, hq, Response.header]

theorem empty_query_short_circuits_witness :
    (searchReq "").Query.lookup "q" = some "" ∧
    SearchUsersAPI timeoutEnv sampleStore (searchReq "") = ⟨Response.json [], sampleStore, []⟩ :=
  ⟨by decide, (empty_query_short_circuits timeoutEnv sampleStore (searchReq "") (Or.inr (by decide))).2.2.1⟩

/-! ## The store operations on a list of documents -/

theorem find_idEq_none (oid : ObjectID) : ∀ docs : List User,
    oid ∉ docs.map User.ID → docs.find? (fun u => decide (u.ID = oid)) = none
  | [], _ => rfl
  | u :: us, h => by
    simp only [List.map_cons, List.mem_cons, not_or] at h
    have hne : ¬ u.ID = oid := fun e => h.1 e.symm
    simp [List.find?, hne, find_idEq_none oid us h.2]

theorem applyFirst_absent (oid : ObjectID) (f : User → User) : ∀ docs : List User,
    oid ∉ docs.map User.ID → applyFirst (fun u => decide (u.ID = oid)) f docs = docs
  | [], _ => rfl
  | u :: us, h => by
    simp only [List.map_cons, List.mem_cons, not_or] at h
    have hne : ¬ u.ID = oid := fun e => h.1 e.symm
    simp [applyFirst, hne, applyFirst_absent oid f us h.2]

theorem removeFirst_absent (oid : ObjectID) : ∀ docs : List User,
    oid ∉ docs.map User.ID → removeFirst (fun u => decide (u.ID = oid)) docs = docs
  | [], _ => rfl
  | u :: us, h => by
    simp only [List.map_cons, List.mem_cons, not_or] at h
    have hne : ¬ u.ID = oid := fun e => h.1 e.symm
    simp [removeFirst, hne, removeFirst_absent oid us h.2]

theorem map_absent (oid : ObjectID) (f : User → User) : ∀ docs : List User,
    oid ∉ docs.map User.ID → docs.map (fun u => if u.ID = oid then f u else u) = docs
  | [], _ => rfl
  | u :: us, h => by
    simp only [List.map_cons, List.mem_cons, not_or] at h
    have hne : ¬ u.ID = oid := fun e => h.1 e.symm
    simp [hne, map_absent oid f us h.2]

theorem filter_absent (oid : ObjectID) : ∀ docs : List User,
    oid ∉ docs.map User.ID → docs.filter (fun u => decide (u.ID ≠ oid)) = docs
  | [], _ => rfl
  | u :: us, h => by
    simp only [List.map_cons, List.mem_cons, not_or] at h
    have hne : ¬ u.ID = oid := fun e => h.1 e.symm
    rw [List.filter_cons_of_pos (by simp [hne]), filter_absent oid us h.2]

theorem applyFirst_eq_map (oid : ObjectID) (f : User → User) : ∀ docs : List User,
    (docs.map User.ID).Nodup →
    applyFirst (fun u => decide (u.ID = oid)) f docs
      = docs.map (fun u => if u.ID = oid then f u else u)
  | [], _ => rfl
  | u :: us, h => by
    simp only [List.map_cons, List.nodup_cons] at h
    by_cases he : u.ID = oid
    · have hab : oid ∉ us.map User.ID := he ▸ h.1
      simp [applyFirst, he, map_absent oid f us hab]
    · simp [applyFirst, he, applyFirst_eq_map oid f us h.2]

theorem removeFirst_eq_filter (oid : ObjectID) : ∀ docs : List User,
    (docs.map User.ID).Nodup →
    removeFirst (fun u => decide (u.ID = oid)) docs = docs.filter (fun u => decide (u.ID ≠ oid))
  | [], _ => rfl
  | u :: us, h => by
    simp only [List.map_cons, List.nodup_cons] at h
    by_cases he : u.ID = oid
    · have hab : oid ∉ us.map User.ID := he ▸ h.1
      rw [List.filter_cons_of_neg (by simp [he]), filter_absent oid us hab]
      simp [removeFirst, he]
    · rw [List.filter_cons_of_pos (by simp [he]), ← removeFirst_eq_filter oid us h.2]
      simp [removeFirst, he]

theorem removeFirst_length (oid : ObjectID) : ∀ docs : List User,
    oid ∈ docs.map User.ID →
    (removeFirst (fun u => decide (u.ID = oid)) docs).length + 1 = docs.length
  | [], h => by simp at h
  | u :: us, h => by
    by_cases he : u.ID = oid
    · simp [removeFirst, he]
    · have hin : oid ∈ us.map User.ID := by
        simp only [List.map_cons, List.mem_cons] at h
        rcases h with h | h
        · exact absurd h.symm he
        · exact h
      simp [removeFirst, he, removeFirst_length oid us hin]

theorem applyFirst_ids (p : User → Bool) (f : User → User) (hf : ∀ u, (f u).ID = u.ID) :
    ∀ docs : List User, (applyFirst p f docs).map User.ID = docs.map User.ID
  | [] => rfl
  | u :: us => by
    by_cases hp : p u = true
    · simp [applyFirst, hp, hf]
    · simp [applyFirst, hp, applyFirst_ids p f hf us]

theorem applyFirst_idem (p : User → Bool) (f : User → User) (hp : ∀ u, p (f u) = p u)
    (hf : ∀ u, f (f u) = f u) :
    ∀ docs : List User, applyFirst p f (applyFirst p f docs) = applyFirst p f docs
  | [] => rfl
  | u :: us => by
    by_cases h : p u = true
    · have h2 : p (f u) = true := by rw [hp]; exact h
      simp [applyFirst, h, h2, hf]
    · simp [applyFirst, h, applyFirst_idem p f hp hf us]

theorem removeFirst_sublist (p : User → Bool) : ∀ docs : List User,
    (removeFirst p docs).Sublist docs
  | [] => List.Sublist.slnil
  | u :: us => by
    by_cases h : p u = true
    · simp [removeFirst, h]
    · simp [removeFirst, h, removeFirst_sublist p us]

/-! ## Failures of the store -/

/-- C2 (evaluation at the failing input): the edit form is requested for the identifier of a
stored user while the store call runs into its deadline; `EditFormHandler` answers 404
"User not found", which is not a 5xx status. -/
theorem editForm_store_failure_is_404 :
    ObjectIDFromHex ((getReq "507f1f77bcf86cd799439011").Var "id") = some bobID ∧
    bob ∈ sampleStore.docs ∧ bob.ID = bobID ∧
    timeoutEnv.fault = some "context deadline exceeded" ∧
    EditFormHandler timeoutEnv sampleStore (getReq "507f1f77bcf86cd799439011")
      = ⟨Response.error "User not found" StatusNotFound, sampleStore,
          [StoreCall.FindOne (Filter.idEq bobID)]⟩ ∧
    (EditFormHandler timeoutEnv sampleStore (getReq "507f1f77bcf86cd799439011")).resp.status = 404 := by
  decide

/-- The sibling handlers answer a failed store call with status 500 and the text of the
error, and leave the collection as it was. -/
theorem store_failure_is_500_elsewhere (env : Env) (c : Collection) (r : Request) (e : String)
    (hf : env.fault = some e) :
    (IndexHandler env c r).resp = Response.error e 500 ∧
    (GetUsersAPI env c r).resp = Response.error e 500 ∧
    (r.Method = "POST" → (Atoi (r.FormValue "age")).isSome = true →
      (CreateHandler env c r).resp = Response.error e 500 ∧ (CreateHandler env c r).store = c) ∧
    (r.Method = "POST" → (ObjectIDFromHex (r.Var "id")).isSome = true →
      (Atoi (r.FormValue "age")).isSome = true →
      (UpdateHandler env c r).resp = Response.error e 500 ∧ (UpdateHandler env c r).store = c) ∧
    ((ObjectIDFromHex (r.Var "id")).isSome = true →
      (DeleteHandler env c r).resp = Response.error e 500 ∧ (DeleteHandler env c r).store = c) ∧
    (r.QueryGet "q" ≠ "" → (SearchHandler env c r).resp = Response.error e 500) ∧
    (r.QueryGet "q" ≠ "" → (SearchUsersAPI env c r).resp = Response.error e 500) := by
  refine ⟨?_, ?_, ?_, ?_, ?_, ?_, ?_⟩
  · simp [IndexHandler, Collection.Find, hf, StatusInternalServerError]
  · simp [GetUsersAPI, Collection.Find, hf, StatusInternalServerError]
  · intro hm ha
    obtain ⟨a, ha⟩ := Option.isSome_iff_exists.mp ha
    simp [CreateHandler, hm, ha, Collection.InsertOne, hf, StatusInternalServerError]
  · intro hm hi ha
    obtain ⟨a, ha⟩ := Option.isSome_iff_exists.mp ha
    obtain ⟨i, hi⟩ := Option.isSome_iff_exists.mp hi
    simp [UpdateHandler, hm, ha, hi, Collection.UpdateOne, hf, StatusInternalServerError]
  · intro hi
    obtain ⟨i, hi⟩ := Option.isSome_iff_exists.mp hi
    simp [DeleteHandler, hi, Collection.DeleteOne, hf, StatusInternalServerError]
  · intro hq
    simp [SearchHandler, hq, Collection.Find, hf, StatusInternalServerError]
  · intro hq
    simp [SearchUsersAPI, hq, Collection.Find, hf, StatusInternalServerError]

/-- Every error of the lookup, whatever its cause, is answered 404 by `EditFormHandler`. -/
theorem editForm_any_store_failure_is_404 (env : Env) (c : Collection) (r : Request)
    (oid : ObjectID) (e : String) (hid : ObjectIDFromHex (r.Var "id") = some oid)
    (hf : env.fault = some e) :
    EditFormHandler env c r
      = ⟨Response.error "User not found" StatusNotFound, c, [StoreCall.FindOne (Filter.idEq oid)]⟩ := by
  simp [EditFormHandler, hid, Collection.FindOne, hf]

/-- A failure while the cursor is drained is answered with status 500 by the four handlers
that read a cursor. -/
theorem cursor_failure_is_500 (env : Env) (c : Collection) (r : Request) (e : String)
    (hf : env.fault = none) (hc : env.cursorFault = some e) :
    (IndexHandler env c r).resp = Response.error e 500 ∧
    (GetUsersAPI env c r).resp = Response.error e 500 ∧
    (r.QueryGet "q" ≠ "" → (SearchHandler env c r).resp.status = 500) ∧
    (r.QueryGet "q" ≠ "" → (SearchUsersAPI env c r).resp.status = 500) := by
  refine ⟨?_, ?_, ?_, ?_⟩
  · simp [IndexHandler, Collection.Find, CursorAll, hf, hc, Filter.compile,
      StatusInternalServerError]
  · simp [GetUsersAPI, Collection.Find, CursorAll, hf, hc, Filter.compile,
      StatusInternalServerError]
  · intro hq
    cases hcomp : (searchFilter (r.QueryGet "q")).compile env <;>
      simp [SearchHandler, hq, Collection.Find, CursorAll, hf, hc, hcomp, Response.status,
        StatusInternalServerError]
  · intro hq
    cases hcomp : (searchFilter (r.QueryGet "q")).compile env <;>
      simp [SearchUsersAPI, hq, Collection.Find, CursorAll, hf, hc, hcomp, Response.status,
        StatusInternalServerError]

/-! ## Absent documents -/

/-- C8: for a well-formed identifier that no stored document carries, `EditFormHandler`
answers 404 "User not found"; `UpdateHandler`, on a POST with an age that parses and a store
call that does not fail, leaves the collection as it was and answers with the redirect to
`/`. -/
theorem absent_id_edit_404_update_redirect (env : Env) (c : Collection) (r : Request)
    (oid : ObjectID) (hid : ObjectIDFromHex (r.Var "id") = some oid) (habs : oid ∉ c.ids) :
    (EditFormHandler env c r).resp = Response.error "User not found" StatusNotFound ∧
    StatusNotFound = 404 ∧
    (r.Method = "POST" → (Atoi (r.FormValue "age")).isSome = true → env.fault = none →
      (UpdateHandler env c r).resp = Response.redirect "/" StatusSeeOther ∧
      (UpdateHandler env c r).store = c ∧
      (UpdateHandler env c r).resp.status = 303) := by
  refine ⟨?_, rfl, ?_⟩
  · cases hf : env.fault with
    | some e => simp [EditFormHandler, hid, Collection.FindOne, hf]
    | none =>
      simp [EditFormHandler, hid, Collection.FindOne, hf, Filter.compile,
        find_idEq_none oid c.docs habs]
  · intro hm ha hf
    obtain ⟨a, ha⟩ := Option.isSome_iff_exists.mp ha
    simp [UpdateHandler, hm, hid, ha, Collection.UpdateOne, hf, Filter.compile,
      applyFirst_absent oid _ c.docs habs, Response.status, StatusSeeOther]

theorem absent_id_edit_404_update_redirect_witness :
    ObjectIDFromHex ((postReq "507f1f77bcf86cd7994390ff" "Zed" "z@x.com" "7").Var "id")
      = some ⟨[80, 127, 31, 119, 188, 248, 108, 215, 153, 67, 144, 255]⟩ ∧
    (EditFormHandler sampleEnv sampleStore (postReq "507f1f77bcf86cd7994390ff" "Zed" "z@x.com" "7")).resp
      = Response.error "User not found" StatusNotFound ∧
    (UpdateHandler sampleEnv sampleStore (postReq "507f1f77bcf86cd7994390ff" "Zed" "z@x.com" "7")).store
      = sampleStore := by
  have h := absent_id_edit_404_update_redirect sampleEnv sampleStore
    (postReq "507f1f77bcf86cd7994390ff" "Zed" "z@x.com" "7")
    ⟨[80, 127, 31, 119, 188, 248, 108, 215, 153, 67, 144, 255]⟩ (by decide) (by decide)
  exact ⟨by decide, h.1, (h.2.2 rfl (by decide) rfl).2.1⟩

/-! ## Creation -/

/-- C6: on a POST whose age parses to `a` and whose insert succeeds, `CreateHandler` answers
with the redirect to `/`, the collection has one document more, and every later listing
(`IndexHandler`, `GetUsersAPI`) shows the documents stored before, unchanged, followed by one
record with the submitted name, email and age and an identifier that no document carried
before. -/
theorem create_then_list (env : Env) (c : Collection) (r : Request) (a : Int)
    (hm : r.Method = "POST") (hage : Atoi (r.FormValue "age") = some a)
    (hins : ∃ res, c.InsertOne env
      { ID := NilObjectID, Name := r.FormValue "name", Email := r.FormValue "email", Age := a }
        = Except.ok res) :
    (CreateHandler env c r).resp = Response.redirect "/" StatusSeeOther ∧
    (CreateHandler env c r).store.docs.length = c.docs.length + 1 ∧
    ∃ u : User, u.Name = r.FormValue "name" ∧ u.Email = r.FormValue "email" ∧ u.Age = a ∧
      u.ID ∉ c.ids ∧
      (CreateHandler env c r).store.docs = c.docs ++ [u] ∧
      ∀ (env2 : Env) (r2 : Request), env2.fault = none → env2.cursorFault = none →
        (IndexHandler env2 (CreateHandler env c r).store r2).resp
          = Response.page ["templates/layout.html", "templates/index.html"]
              (TemplateData.users (c.docs ++ [u])) ∧
        (GetUsersAPI env2 (CreateHandler env c r).store r2).resp = Response.json (c.docs ++ [u]) := by
  obtain ⟨res, hres⟩ := hins
  cases hf : env.fault with
  | some e => simp [Collection.InsertOne, hf] at hres
  | none =>
    by_cases hdup : env.newID ∈ c.ids
    · simp [Collection.InsertOne, assignID, hf, hdup] at hres
    · have hstore : (CreateHandler env c r).store.docs
          = c.docs ++ [{ ID := env.newID, Name := r.FormValue "name",
                         Email := r.FormValue "email", Age := a }] := by
        simp [CreateHandler, hm, hage, Collection.InsertOne, assignID, hf, hdup]
      refine ⟨?_, ?_, ⟨User.mk env.newID (r.FormValue "name") (r.FormValue "email") a,
        rfl, rfl, rfl, hdup, hstore, ?_⟩⟩
      · simp [CreateHandler, hm, hage, Collection.InsertOne, assignID, hf, hdup]
      · rw [hstore]; simp
      · intro env2 r2 h2 h3
        simp [IndexHandler, GetUsersAPI, Collection.Find, CursorAll, h2, h3, Filter.compile, hstore]

theorem create_then_list_witness :
    (∃ res, sampleStore.InsertOne sampleEnv
      { ID := NilObjectID, Name := (postReq "" "Cy" "cy@x.com" "-5").FormValue "name",
        Email := (postReq "" "Cy" "cy@x.com" "-5").FormValue "email", Age := -5 } = Except.ok res) ∧
    (CreateHandler sampleEnv sampleStore (postReq "" "Cy" "cy@x.com" "-5")).store.docs.length
      = sampleStore.docs.length + 1 := by
  have hins : ∃ res, sampleStore.InsertOne sampleEnv
      { ID := NilObjectID, Name := (postReq "" "Cy" "cy@x.com" "-5").FormValue "name",
        Email := (postReq "" "Cy" "cy@x.com" "-5").FormValue "email", Age := -5 } = Except.ok res :=
    ⟨_, rfl⟩
  exact ⟨hins, (create_then_list sampleEnv sampleStore (postReq "" "Cy" "cy@x.com" "-5") (-5) rfl
    (by decide) hins).2.1⟩

/-! ## Update -/

/-- C7: on a valid update request (POST, well-formed identifier, age that parses to `a`)
whose identifier is carried by a stored document, and when the store call does not fail,
the document with that identifier has the submitted name, email and age and its identifier
as before, every other document is as before, and the number of documents is as before. -/
theorem update_sets_fields (env : Env) (c : Collection) (r : Request) (oid : ObjectID) (a : Int)
    (hv : c.Valid) (hm : r.Method = "POST") (hid : ObjectIDFromHex (r.Var "id") = some oid)
    (hage : Atoi (r.FormValue "age") = some a) (hf : env.fault = none) (_hin : oid ∈ c.ids) :
    (UpdateHandler env c r).store.docs
      = c.docs.map (fun u => if u.ID = oid then
          { ID := u.ID, Name := r.FormValue "name", Email := r.FormValue "email", Age := a }
        else u) ∧
    (UpdateHandler env c r).store.ids = c.ids ∧
    (UpdateHandler env c r).store.docs.length = c.docs.length ∧
    ({ ID := oid, Name := r.FormValue "name", Email := r.FormValue "email", Age := a } : User)
      ∈ (UpdateHandler env c r).store.docs := by
  have hstore : (UpdateHandler env c r).store.docs
      = c.docs.map (fun u => if u.ID = oid then
          { ID := u.ID, Name := r.FormValue "name", Email := r.FormValue "email", Age := a }
        else u) := by
    simp only [UpdateHandler, hm, hid, hage, Collection.UpdateOne, hf, Filter.compile]
    simp only [ne_eq, not_true_eq_false, if_false]
    exact applyFirst_eq_map oid _ c.docs hv
  refine ⟨hstore, ?_, ?_, ?_⟩
  · unfold Collection.ids
    rw [hstore, List.map_map]
    apply List.map_congr_left
    intro u _
    by_cases h : u.ID = oid <;> simp [h]
  · rw [hstore, List.length_map]
  · rw [hstore]
    obtain ⟨u, hu, hue⟩ := List.mem_map.mp _hin
    refine List.mem_map.mpr ⟨u, hu, ?_⟩
    simp [hue]

theorem update_sets_fields_witness :
    sampleStore.Valid ∧ bobID ∈ sampleStore.ids ∧
    (UpdateHandler sampleEnv sampleStore
      (postReq "507f1f77bcf86cd799439011" "Robert" "rob@x.com" "31")).store.docs.length = 2 := by
  have hv : sampleStore.Valid := by unfold Collection.Valid; decide
  exact ⟨hv, by decide, (update_sets_fields sampleEnv sampleStore
    (postReq "507f1f77bcf86cd799439011" "Robert" "rob@x.com" "31") bobID 31 hv rfl (by decide)
    (by decide) rfl (by decide)).2.2.1⟩

/-- C10: the same update request applied a second time, the store call failing or not as it
did the first time, leaves the collection exactly as the first application left it and is
answered as the first one was. -/
theorem update_idempotent (env1 env2 : Env) (c : Collection) (r : Request)
    (hf : env2.fault = env1.fault) :
    (UpdateHandler env2 (UpdateHandler env1 c r).store r).store = (UpdateHandler env1 c r).store ∧
    (UpdateHandler env2 (UpdateHandler env1 c r).store r).resp = (UpdateHandler env1 c r).resp := by
  by_cases hm : r.Method = "POST"
  · cases hid : ObjectIDFromHex (r.Var "id") with
    | none => simp [UpdateHandler, hm, hid]
    | some oid =>
      cases hage : Atoi (r.FormValue "age") with
      | none => simp [UpdateHandler, hm, hid, hage]
      | some a =>
        cases h1 : env1.fault with
        | some e => simp [UpdateHandler, hm, hid, hage, Collection.UpdateOne, hf, h1]
        | none =>
          simp only [UpdateHandler, hm, hid, hage, Collection.UpdateOne, hf, h1, Filter.compile]
          simp only [ne_eq, not_true_eq_false, if_false, and_true]
          congr 1
          exact applyFirst_idem (fun u => decide (u.ID = oid))
            (fun u => { ID := u.ID, Name := r.FormValue "name", Email := r.FormValue "email",
                        Age := a })
            (fun u => rfl) (fun u => rfl) c.docs
  · simp [UpdateHandler, hm]

theorem update_idempotent_witness :
    sampleEnv.fault = sampleEnv.fault ∧
    (UpdateHandler sampleEnv (UpdateHandler sampleEnv sampleStore
      (postReq "507f1f77bcf86cd799439011" "Robert" "rob@x.com" "31")).store
      (postReq "507f1f77bcf86cd799439011" "Robert" "rob@x.com" "31")).store
      = (UpdateHandler sampleEnv sampleStore
      (postReq "507f1f77bcf86cd799439011" "Robert" "rob@x.com" "31")).store :=
  ⟨rfl, (update_idempotent sampleEnv sampleEnv sampleStore
    (postReq "507f1f77bcf86cd799439011" "Robert" "rob@x.com" "31") rfl).1⟩

/-! ## Deletion -/

theorem filter_ne_absent (oid : ObjectID) (docs : List User) :
    oid ∉ (docs.filter (fun u => decide (u.ID ≠ oid))).map User.ID := by
  intro h
  obtain ⟨u, hu, hue⟩ := List.mem_map.mp h
  have := (List.mem_filter.mp hu).2
  simp [hue] at this

/-- C9: with unique identifiers in the collection and store calls that do not fail,
`DeleteHandler` run a second time with the same well-formed identifier leaves the collection
as the first run left it and is answered with the redirect to `/`, as the first run is; an
identifier that no document carries leaves the collection as it was; an identifier that a
document carries removes that document and no other. -/
theorem delete_idempotent (env1 env2 : Env) (c : Collection) (r : Request) (oid : ObjectID)
    (hv : c.Valid) (hid : ObjectIDFromHex (r.Var "id") = some oid)
    (h1 : env1.fault = none) (h2 : env2.fault = none) :
    (DeleteHandler env2 (DeleteHandler env1 c r).store r).store = (DeleteHandler env1 c r).store ∧
    (DeleteHandler env1 c r).resp = Response.redirect "/" StatusSeeOther ∧
    (DeleteHandler env2 (DeleteHandler env1 c r).store r).resp
      = Response.redirect "/" StatusSeeOther ∧
    (oid ∉ c.ids → (DeleteHandler env1 c r).store = c) ∧
    (oid ∈ c.ids →
      (DeleteHandler env1 c r).store.docs = c.docs.filter (fun u => decide (u.ID ≠ oid)) ∧
      (DeleteHandler env1 c r).store.docs.length + 1 = c.docs.length ∧
      oid ∉ (DeleteHandler env1 c r).store.ids) := by
  have hstore : (DeleteHandler env1 c r).store
      = ⟨c.docs.filter (fun u => decide (u.ID ≠ oid))⟩ := by
    simp only [DeleteHandler, hid, Collection.DeleteOne, h1, Filter.compile]
    rw [removeFirst_eq_filter oid c.docs hv]
  have hlen : oid ∈ c.ids → (DeleteHandler env1 c r).store.docs.length + 1 = c.docs.length := by
    intro hin
    simp only [DeleteHandler, hid, Collection.DeleteOne, h1, Filter.compile]
    exact removeFirst_length oid c.docs hin
  refine ⟨?_, ?_, ?_, ?_, ?_⟩
  · rw [hstore]
    simp only [DeleteHandler, hid, Collection.DeleteOne, h2, Filter.compile]
    rw [removeFirst_absent oid _ (filter_ne_absent oid c.docs)]
  · simp [DeleteHandler, hid, Collection.DeleteOne, h1, Filter.compile]
  · simp [DeleteHandler, hid, Collection.DeleteOne, h2, Filter.compile]
  · intro habs
    rw [hstore, filter_absent oid c.docs habs]
  · intro hin
    refine ⟨by rw [hstore], hlen hin, ?_⟩
    rw [hstore]
    exact filter_ne_absent oid c.docs

theorem delete_idempotent_witness :
    sampleStore.Valid ∧
    ObjectIDFromHex ((getReq "507f1f77bcf86cd799439011").Var "id") = some bobID ∧
    (DeleteHandler sampleEnv (DeleteHandler sampleEnv sampleStore
      (getReq "507f1f77bcf86cd799439011")).store (getReq "507f1f77bcf86cd799439011")).store
      = (DeleteHandler sampleEnv sampleStore (getReq "507f1f77bcf86cd799439011")).store := by
  have hv : sampleStore.Valid := by unfold Collection.Valid; decide
  exact ⟨hv, by decide, (delete_idempotent sampleEnv sampleEnv sampleStore
    (getReq "507f1f77bcf86cd799439011") bobID hv (by decide) rfl rfl).1⟩

/-! ## Uniqueness of identifiers is kept by every handler -/

theorem InsertOne_valid (env : Env) (c c2 : Collection) (u : User) (oid : ObjectID)
    (hv : c.Valid) (h : c.InsertOne env u = Except.ok (oid, c2)) : c2.Valid := by
  unfold Collection.InsertOne at h
  split at h
  · simp at h
  · dsimp only at h
    split at h
    · simp at h
    · rename_i hnew
      simp only [Except.ok.injEq, Prod.mk.injEq] at h
      rw [← h.2]
      unfold Collection.Valid Collection.ids
      simp only [List.map_append, List.map_cons, List.map_nil]
      refine List.Nodup.append hv (List.nodup_singleton _) ?_
      simpa [List.disjoint_singleton, Collection.ids] using hnew

theorem UpdateOne_valid (env : Env) (c c2 : Collection) (f : Filter) (upd : SetFields)
    (hv : c.Valid) (h : c.UpdateOne env f upd = Except.ok c2) : c2.Valid := by
  unfold Collection.UpdateOne at h
  split at h
  · simp at h
  · split at h
    · simp at h
    · simp only [Except.ok.injEq] at h
      rw [← h]
      unfold Collection.Valid Collection.ids
      dsimp only
      rw [applyFirst_ids _ (fun u => User.mk u.ID upd.name upd.email upd.age) (fun u => rfl)]
      exact hv

theorem DeleteOne_valid (env : Env) (c c2 : Collection) (f : Filter)
    (hv : c.Valid) (h : c.DeleteOne env f = Except.ok c2) : c2.Valid := by
  unfold Collection.DeleteOne at h
  split at h
  · simp at h
  · split at h
    · simp at h
    · simp only [Except.ok.injEq] at h
      rw [← h]
      unfold Collection.Valid Collection.ids
      exact List.Nodup.sublist ((removeFirst_sublist _ c.docs).map User.ID) hv

theorem handlers_keep_identifiers_unique (env : Env) (c : Collection) (r : Request)
    (hv : c.Valid) :
    (IndexHandler env c r).store = c ∧ (CreateFormHandler env c r).store = c ∧
    (EditFormHandler env c r).store = c ∧ (GetUsersAPI env c r).store = c ∧
    (SearchHandler env c r).store = c ∧ (SearchUsersAPI env c r).store = c ∧
    (CreateHandler env c r).store.Valid ∧ (UpdateHandler env c r).store.Valid ∧
    (DeleteHandler env c r).store.Valid := by
  refine ⟨?_, rfl, ?_, ?_, ?_, ?_, ?_, ?_, ?_⟩
  · cases h1 : Collection.Find env c Filter.all with
    | error e => simp [IndexHandler, h1]
    | ok cursor => cases h2 : CursorAll env cursor <;> simp [IndexHandler, h1, h2]
  · cases hid : ObjectIDFromHex (r.Var "id") with
    | none => simp [EditFormHandler, hid]
    | some oid =>
      cases h1 : Collection.FindOne env c (Filter.idEq oid) <;> simp [EditFormHandler, hid, h1]
  · cases h1 : Collection.Find env c Filter.all with
    | error e => simp [GetUsersAPI, h1]
    | ok cursor => cases h2 : CursorAll env cursor <;> simp [GetUsersAPI, h1, h2]
  · by_cases hq : r.QueryGet "q" = ""
    · simp [SearchHandler, hq]
    · cases h1 : Collection.Find env c (searchFilter (r.QueryGet "q")) with
      | error e => simp [SearchHandler, hq, h1]
      | ok cursor => cases h2 : CursorAll env cursor <;> simp [SearchHandler, hq, h1, h2]
  · by_cases hq : r.QueryGet "q" = ""
    · simp [SearchUsersAPI, hq]
    · cases h1 : Collection.Find env c (searchFilter (r.QueryGet "q")) with
      | error e => simp [SearchUsersAPI, hq, h1]
      | ok cursor => cases h2 : CursorAll env cursor <;> simp [SearchUsersAPI, hq, h1, h2]
  · by_cases hm : r.Method = "POST"
    · cases hage : Atoi (r.FormValue "age") with
      | none => simpa [CreateHandler, hm, hage] using hv
      | some a =>
        cases hins : c.InsertOne env
            { ID := NilObjectID, Name := r.FormValue "name", Email := r.FormValue "email", Age := a } with
        | error e => simpa [CreateHandler, hm, hage, hins] using hv
        | ok res =>
          obtain ⟨oid, c2⟩ := res
          simpa [CreateHandler, hm, hage, hins] using InsertOne_valid env c c2 _ oid hv hins
    · simpa [CreateHandler, hm] using hv
  · by_cases hm : r.Method = "POST"
    · cases hid : ObjectIDFromHex (r.Var "id") with
      | none => simpa [UpdateHandler, hm, hid] using hv
      | some oid =>
        cases hage : Atoi (r.FormValue "age") with
        | none => simpa [UpdateHandler, hm, hid, hage] using hv
        | some a =>
          cases hup : c.UpdateOne env (Filter.idEq oid)
              { name := r.FormValue "name", email := r.FormValue "email", age := a } with
          | error e => simpa [UpdateHandler, hm, hid, hage, hup] using hv
          | ok c2 =>
            simpa [UpdateHandler, hm, hid, hage, hup] using UpdateOne_valid env c c2 _ _ hv hup
    · simpa [UpdateHandler, hm] using hv
  · cases hid : ObjectIDFromHex (r.Var "id") with
    | none => simpa [DeleteHandler, hid] using hv
    | some oid =>
      cases hdel : c.DeleteOne env (Filter.idEq oid) with
      | error e => simpa [DeleteHandler, hid, hdel] using hv
      | ok c2 => simpa [DeleteHandler, hid, hdel] using DeleteOne_valid env c c2 _ hv hdel

/-! ## Search -/

theorem mkAlt_fail_right (a : Regex) : Regex.mkAlt a Regex.fail = a := by
  cases a <;> rfl

theorem matchesStart_fail (fold : Char → Char) : ∀ s : List Char,
    Regex.matchesStart fold Regex.fail s = false
  | [] => rfl
  | d :: s => by
    simp [Regex.matchesStart, Regex.nullable, Regex.deriv, matchesStart_fail fold s]

theorem nullable_lits (q : List Char) : (lits q).nullable = true ↔ q = [] := by
  cases q <;> simp [lits, Regex.nullable]

theorem matchesStart_lits (fold : Char → Char) : ∀ (q s : List Char),
    Regex.matchesStart fold (lits q) s = true ↔ q.map fold <+: s.map fold
  | [], s => by
    cases s <;> simp [lits, Regex.matchesStart, Regex.nullable]
  | a :: q, [] => by
    simp [lits, Regex.matchesStart, Regex.nullable]
  | a :: q, d :: s => by
    have ih := matchesStart_lits fold q s
    have hl : lits (a :: q) = Regex.seq (Regex.lit a) (lits q) := rfl
    rw [hl]
    simp only [Regex.matchesStart, Regex.nullable, Regex.deriv, Bool.false_and, Bool.false_or,
      Bool.false_eq_true, if_false, mkAlt_fail_right, List.map_cons, List.cons_prefix_cons]
    by_cases hc : fold a = fold d
    · simp only [hc, if_true, Regex.mkSeq, true_and]
      exact ih
    · simp [hc, Regex.mkSeq, matchesStart_fail]

theorem search_lits (fold : Char → Char) (q : List Char) : ∀ s : List Char,
    Regex.search fold (lits q) s = true ↔ q.map fold <:+: s.map fold
  | [] => by
    simp [Regex.search, nullable_lits]
  | d :: s => by
    have ih := search_lits fold q s
    simp only [Regex.search, Bool.or_eq_true, List.map_cons, List.infix_cons_iff, ih]
    rw [matchesStart_lits fold q (d :: s)]
    simp

theorem seqOf_reverse_lits (q : List Char) : seqOf (q.map Regex.lit).reverse = lits q := by
  unfold seqOf lits
  rw [List.foldl_reverse, List.foldr_map]

theorem step_plain (st : PState) (c : Char) (he : st.escaped = false)
    (hc : isMeta c = false) : step st c = Step.next (st.push (Regex.lit c)) := by
  have hm := hc
  simp only [isMeta, List.mem_cons, List.mem_singleton, decide_eq_false_iff_not, not_or,
    List.not_mem_nil, or_false] at hm
  obtain ⟨h1, h2, h3, h4, h5, h6, h7, h8, _⟩ := hm
  unfold step
  simp only [he, Bool.false_eq_true, if_false, h1, h2, h3, h4, h5, h6, h7, h8, hc]

theorem parseFrom_plain : ∀ (q : List Char) (st : PState),
    st.escaped = false → (∀ c ∈ q, isMeta c = false) →
    ∃ b o, parseFrom q st
      = finish ⟨⟨st.cur.alts, (q.map Regex.lit).reverse ++ st.cur.atoms, b⟩, st.stack, false, o⟩
  | [], st, he, _ => ⟨st.cur.quantified, st.opened, by
      cases st with
      | mk cur stack escaped opened =>
        simp only at he
        subst he
        rfl⟩
  | c :: q, st, he, h => by
    obtain ⟨b, o, hb⟩ := parseFrom_plain q (st.push (Regex.lit c)) rfl
      (fun d hd => h d (by simp [hd]))
    refine ⟨b, o, ?_⟩
    have hstep := step_plain st c he (h c (by simp))
    rw [parseFrom, hstep]
    simp only
    rw [hb]
    simp [PState.push, Frame.push]

theorem parsePattern_plain (q : String) (h : IsPlain q) :
    parsePattern q = Compiled.ok (lits q.data) := by
  obtain ⟨b, o, hb⟩ := parseFrom_plain q.data ⟨Frame.start, [], false, false⟩ rfl h
  unfold parsePattern
  rw [hb]
  simp [finish, Frame.close, Frame.start, seqOf_reverse_lits]

theorem compile_searchFilter_plain (env : Env) (q : String) (h : IsPlain q) :
    (searchFilter q).compile env
      = some (fun u => Regex.search env.fold (lits q.data) u.Name.data
                        || Regex.search env.fold (lits q.data) u.Email.data) := by
  simp [searchFilter, Filter.compile, compileRegex, parsePattern_plain q h, User.textField]

theorem filter_searchFilter_plain (fold : Char → Char) (q : String) (docs : List User) :
    docs.filter (fun u => Regex.search fold (lits q.data) u.Name.data
                          || Regex.search fold (lits q.data) u.Email.data)
      = literalMatches fold q docs := by
  unfold literalMatches
  apply List.filter_congr
  intro u _
  rw [Bool.eq_iff_iff]
  simp only [Bool.or_eq_true, decide_eq_true_eq, containsFold, search_lits]

/-- C1 (as stated, refuted): the query `b.b` is not taken as literal text.  Both search
handlers return the user named "Bob", whose name and email contain no `b.b`; the users that
contain the query are none. -/
theorem search_literal_counterexample :
    (searchReq "b.b").QueryGet "q" ≠ "" ∧
    literalMatches sampleEnv.fold "b.b" sampleStore.docs = [] ∧
    (SearchUsersAPI sampleEnv sampleStore (searchReq "b.b")).resp = Response.json [bob] ∧
    (SearchHandler sampleEnv sampleStore (searchReq "b.b")).resp
      = Response.page ["templates/layout.html", "templates/search.html"]
          (TemplateData.search [bob] "b.b" 1) := by
  decide

/-- The query `(` is not taken as literal text either: the store rejects it as a pattern and
both search handlers answer with status 500. -/
theorem search_open_parenthesis_is_500 :
    (SearchUsersAPI sampleEnv sampleStore (searchReq "(")).resp.status = 500 ∧
    (SearchHandler sampleEnv sampleStore (searchReq "(")).resp.status = 500 := by
  decide

/-- C1 (amended): for a non-empty query without any character that is special in a pattern
(none of `\ . + * ? ( ) | [ ] { } ^ $`), and store calls that do not fail, `SearchUsersAPI`
and `SearchHandler` return exactly the stored users whose name or whose email contains the
query as a contiguous run of characters, compared after case folding, in the order of the
store; the page also carries the query and the number of users returned. -/
theorem search_plain_query (env : Env) (c : Collection) (r : Request)
    (hq : r.QueryGet "q" ≠ "") (hp : IsPlain (r.QueryGet "q"))
    (hf : env.fault = none) (hc : env.cursorFault = none) :
    (SearchUsersAPI env c r).resp
      = Response.json (literalMatches env.fold (r.QueryGet "q") c.docs) ∧
    (SearchHandler env c r).resp
      = Response.page ["templates/layout.html", "templates/search.html"]
          (TemplateData.search (literalMatches env.fold (r.QueryGet "q") c.docs) (r.QueryGet "q")
            (literalMatches env.fold (r.QueryGet "q") c.docs).length) := by
  have hcomp := compile_searchFilter_plain env (r.QueryGet "q") hp
  have hfil := filter_searchFilter_plain env.fold (r.QueryGet "q") c.docs
  constructor
  · simp only [SearchUsersAPI, hq, if_false, Collection.Find, hf, hcomp, CursorAll, hc, hfil]
  · simp only [SearchHandler, hq, if_false, Collection.Find, hf, hcomp, CursorAll, hc, hfil]

theorem search_plain_query_witness :
    (searchReq "ann").QueryGet "q" ≠ "" ∧ IsPlain ((searchReq "ann").QueryGet "q") ∧
    literalMatches sampleEnv.fold "ann" sampleStore.docs = [ann] ∧
    (SearchUsersAPI sampleEnv sampleStore (searchReq "ann")).resp
      = Response.json (literalMatches sampleEnv.fold ((searchReq "ann").QueryGet "q") sampleStore.docs) := by
  have hp : IsPlain ((searchReq "ann").QueryGet "q") := by
    unfold IsPlain
    decide
  exact ⟨by decide, hp, by decide,
    (search_plain_query sampleEnv sampleStore (searchReq "ann") (by decide) hp rfl rfl).1⟩

end CrudApp
